import Mathlib

/-!
Verification of `coalib/misc/Caching.py` from the coala repository.

The module keeps two on-disk pickle stores:
- the run-time store (`caching_db`): project dir → (file path → last-run
  epoch timestamp, `-1` meaning "never run"),
- the changed-files store (`changed_files_db`): project dir → set of file
  paths changed since the last run.

We embed the stores shallowly.  A store file on disk is either absent,
present but unreadable by pickle (corrupt), or holds a deserialized value.
Python dicts are modelled as association lists with first-match lookup and
in-place replacement on assignment (matching `dict` semantics for code that
never relies on iteration order beyond value updates); Python sets of file
paths are modelled as lists observed through membership.  Timestamps are
`Int` (so the `-1` sentinel is representable); the current time
(`calendar.timegm(time.gmtime())` in the source) is passed in as an
explicit parameter.  `delete_cache_files` is modelled over the set of
file names existing on disk, with `os.remove` failing with `OSError`
exactly when the file is absent.
-/

namespace Caching

/-- A single named store file on disk: missing, present but not
deserializable, or holding a pickled value of type `α`. -/
inductive StoreFile (α : Type) where
  | absent : StoreFile α
  | corrupt : StoreFile α
  | val : α → StoreFile α
  deriving Repr, DecidableEq

/-- `pickle_load` (Caching.py lines 54-87): if the file does not exist,
return the fallback; if it exists but unpickling fails, delete the file
(via `delete_cache_files` on that single existing file, which succeeds)
and return the fallback; otherwise return the stored value.  The second
component is the state of the file afterwards. -/
def pickle_load {α : Type} (f : StoreFile α) (fallback : α) : α × StoreFile α :=
  match f with
  | .absent => (fallback, .absent)
  | .corrupt => (fallback, .absent)
  | .val v => (v, .val v)

/-- `pickle_dump` (Caching.py lines 90-103): overwrite the file with the
serialization of `data`. -/
def pickle_dump {α : Type} (_f : StoreFile α) (data : α) : StoreFile α :=
  .val data

/-- Python `d.get(k)` / first-match association-list lookup. -/
def alookup {β : Type} : List (String × β) → String → Option β
  | [], _ => none
  | (a, b) :: t, k => if a = k then some b else alookup t k

/-- Python `d[k] = v`: replace the binding of `k` if present, else append. -/
def ainsert {β : Type} : List (String × β) → String → β → List (String × β)
  | [], k, v => [(k, v)]
  | (a, b) :: t, k, v => if a = k then (k, v) :: t else (a, b) :: ainsert t k v

/-- Python set union `s.update(t)` on the list model. -/
def setUnion (s t : List String) : List String :=
  s ++ t.filter (fun x => ¬ x ∈ s)

/-- A run-time store entry: file path → last-run timestamp. -/
abbrev RunTimeData := List (String × Int)

/-- The whole run-time store (`caching_db`): project dir → entry. -/
abbrev CachingDB := List (String × RunTimeData)

/-- The whole changed-files store (`changed_files_db`): project dir → set
of changed file paths. -/
abbrev ChangedDB := List (String × List String)

/-- The two store files of the cache, as they sit on disk. -/
structure World where
  caching_db : StoreFile CachingDB
  changed_files_db : StoreFile ChangedDB
  deriving Repr, DecidableEq

/-- `add_to_changed_files` (Caching.py lines 106-124): load the
changed-files store with fallback `{}`, union the incoming set into the
project's entry (or create the entry as exactly the incoming set), and
dump the store back. -/
def add_to_changed_files (w : World) (project_dir : String)
    (changed_files : List String) : World :=
  let l := pickle_load w.changed_files_db []
  let data := l.1
  let data' :=
    match alookup data project_dir with
    | some s => ainsert data project_dir (setUnion s changed_files)
    | none => ainsert data project_dir changed_files
  { w with changed_files_db := pickle_dump l.2 data' }

/-- `get_last_coala_run_time` (Caching.py lines 127-141): load the
run-time store with fallback `{}` and return `data.get(project_dir, None)`.
The second component records the load's effect on the file (corruption is
healed by deletion). -/
def get_last_coala_run_time (w : World) (project_dir : String) :
    Option RunTimeData × World :=
  let l := pickle_load w.caching_db []
  (alookup l.1 project_dir, { w with caching_db := l.2 })

/-- `add_new_files_since_last_run` (Caching.py lines 144-165): treat an
absent `last_coala_run` as `{}`, set each new file's timestamp to the
sentinel `-1`, then store the result as the project's full entry in the
run-time store. -/
def add_new_files_since_last_run (w : World) (project_dir : String)
    (last_coala_run : Option RunTimeData) (new_files : List String) : World :=
  let run := last_coala_run.getD []
  let run' := new_files.foldl (fun m f => ainsert m f (-1)) run
  let l := pickle_load w.caching_db []
  { w with caching_db := pickle_dump l.2 (ainsert l.1 project_dir run') }

/-- The per-file update of `update_last_coala_run_time` (Caching.py lines
187-190): the timestamp of file `f` becomes `current_time` when the
project has no changed set (`chset = none`) or `f` is not in it, and stays
at its old value `t` when `f` is in the changed set. -/
def refreshTime (chset : Option (List String)) (current_time : Int)
    (f : String) (t : Int) : Int :=
  match chset with
  | none => current_time
  | some s => if f ∈ s then t else current_time

/-- `update_last_coala_run_time` (Caching.py lines 168-193): load both
stores with fallback `{}`; if the project has no run-time entry, return
early (nothing is dumped); otherwise set the timestamp of every file of
the entry that is not in the project's changed set (or when the project
has no changed set) to `current_time`, reset the project's changed set to
empty, and dump both stores. -/
def update_last_coala_run_time (w : World) (current_time : Int)
    (project_dir : String) : World :=
  let l1 := pickle_load w.caching_db []
  let l2 := pickle_load w.changed_files_db []
  let data := l1.1
  let changed_files := l2.1
  match alookup data project_dir with
  | none => { caching_db := l1.2, changed_files_db := l2.2 }
  | some entry =>
    let chset := alookup changed_files project_dir
    let entry' := entry.map (fun pr =>
      (pr.1, refreshTime chset current_time pr.1 pr.2))
    { caching_db := pickle_dump l1.2 (ainsert data project_dir entry'),
      changed_files_db :=
        pickle_dump l2.2 (ainsert changed_files project_dir []) }

/-- The run-time store as `pickle_load` with fallback `{}` observes it. -/
def loadCachingData (w : World) : CachingDB :=
  (pickle_load w.caching_db []).1

/-- The changed-files store as `pickle_load` with fallback `{}` observes it. -/
def loadChangedData (w : World) : ChangedDB :=
  (pickle_load w.changed_files_db []).1

/-- The stored timestamp of file `f` in project `p`, if any. -/
def getTime (w : World) (p f : String) : Option Int :=
  match alookup (loadCachingData w) p with
  | none => none
  | some e => alookup e f

/-- Whether file `f` is in project `p`'s stored changed set. -/
def changedHas (w : World) (p f : String) : Bool :=
  match alookup (loadChangedData w) p with
  | none => false
  | some s => decide (f ∈ s)

/-- `delete_cache_files` loop (Caching.py lines 36-42): try to remove each
file in turn; `os.remove` raises `OSError` when the file is absent, in
which case the name is appended to the error list.  `disk` is the set of
file names that exist; the result is the final error list and disk. -/
def deleteLoop : List String → List String → List String →
    List String × List String
  | disk, [], errs => (errs, disk)
  | disk, f :: t, errs =>
    if f ∈ disk then deleteLoop (disk.erase f) t errs
    else deleteLoop disk t (errs ++ [f])

/-- `delete_cache_files` (Caching.py lines 22-51): warn, try to delete
every listed file, warn again naming the failures if any, and return
`true` iff every requested file was successfully deleted. -/
def delete_cache_files (disk : List String) (files : List String) :
    Bool × List String :=
  let r := deleteLoop disk files []
  (r.1.isEmpty, r.2)

theorem alookup_ainsert_self {β : Type} (l : List (String × β))
    (k : String) (v : β) : alookup (ainsert l k v) k = some v := by
  induction l with
  | nil => simp [ainsert, alookup]
  | cons hd t ih =>
    obtain ⟨a, b⟩ := hd
    by_cases h : a = k
    · simp [ainsert, alookup, h]
    · simp [ainsert, alookup, h, ih]

theorem alookup_ainsert_of_ne {β : Type} (l : List (String × β))
    (k k' : String) (v : β) (h : k' ≠ k) :
    alookup (ainsert l k v) k' = alookup l k' := by
  induction l with
  | nil => simp [ainsert, alookup, Ne.symm h]
  | cons hd t ih =>
    obtain ⟨a, b⟩ := hd
    by_cases ha : a = k
    · subst ha
      simp [ainsert, alookup, Ne.symm h]
    · by_cases ha' : a = k'
      · subst ha'
        simp [ainsert, alookup, ha]
      · simp [ainsert, alookup, ha, ha', ih]

theorem alookup_foldl_ainsert (nf : List String) (init : RunTimeData)
    (f : String) :
    alookup (nf.foldl (fun m x => ainsert m x (-1)) init) f =
      if f ∈ nf then some (-1) else alookup init f := by
  induction nf generalizing init with
  | nil => simp
  | cons x t ih =>
    simp only [List.foldl_cons, ih]
    by_cases hft : f ∈ t
    · simp [hft, List.mem_cons]
    · by_cases hfx : f = x
      · subst hfx
        simp [hft, alookup_ainsert_self]
      · simp [hft, hfx, alookup_ainsert_of_ne _ _ _ _ hfx]

theorem alookup_map_snd (l : RunTimeData) (g : String → Int → Int)
    (k : String) :
    alookup (l.map (fun pr => (pr.1, g pr.1 pr.2))) k =
      (alookup l k).map (g k) := by
  induction l with
  | nil => simp [alookup]
  | cons hd t ih =>
    obtain ⟨a, b⟩ := hd
    by_cases h : a = k
    · subst h
      simp [alookup]
    · simp [alookup, h, ih]

theorem refreshTime_changedHas (w : World) (p f : String) (now t : Int) :
    refreshTime (alookup (pickle_load w.changed_files_db []).1 p) now f t =
      if changedHas w p f then t else now := by
  unfold changedHas loadChangedData
  cases alookup (pickle_load w.changed_files_db []).1 p with
  | none => simp [refreshTime]
  | some s => by_cases hm : f ∈ s <;> simp [refreshTime, hm]

theorem pickle_load_load {α : Type} (f : StoreFile α) (fb : α) :
    (pickle_load (pickle_load f fb).2 fb).1 = (pickle_load f fb).1 := by
  cases f <;> rfl

@[simp] theorem pickle_load_val {α : Type} (v fb : α) :
    pickle_load (StoreFile.val v) fb = (v, StoreFile.val v) := rfl

/-- A sample world: project P is registered with files a.c (last run at
time 5) and b.c (sentinel), project Q with x.c; only a.c of P is recorded
as changed. -/
def exampleWorld : World :=
  { caching_db := .val [("P", [("a.c", 5), ("b.c", -1)]), ("Q", [("x.c", 7)])],
    changed_files_db := .val [("P", ["a.c"])] }

/-- C7: dumping a value to a store file and loading it back returns that
value, for any fallback and any prior state of the file. -/
theorem pickle_dump_load_round_trip {α : Type} (f : StoreFile α)
    (v fallback : α) :
    (pickle_load (pickle_dump f v) fallback).1 = v := rfl

/-- C8: loading a store file whose content cannot be deserialized returns
the fallback value, and afterwards the file no longer exists on disk. -/
theorem pickle_load_corrupt_heals {α : Type} (fallback : α) :
    pickle_load (StoreFile.corrupt : StoreFile α) fallback =
      (fallback, StoreFile.absent) := rfl

/-- C5: `get_last_coala_run_time` returns the project's stored mapping when
the run-time store has an entry for it, and `none` (not an empty mapping)
when the project has never been registered. -/
theorem get_last_run_time_entry_or_none (w : World) (p : String) :
    (∀ e, alookup (loadCachingData w) p = some e →
      (get_last_coala_run_time w p).1 = some e) ∧
    (alookup (loadCachingData w) p = none →
      (get_last_coala_run_time w p).1 = none) := by
  constructor
  · intro e he
    simp [get_last_coala_run_time, loadCachingData] at he ⊢
    exact he
  · intro he
    simp [get_last_coala_run_time, loadCachingData] at he ⊢
    exact he

theorem get_last_run_time_entry_or_none_w :
    (alookup (loadCachingData exampleWorld) "P" =
      some [("a.c", 5), ("b.c", -1)]) ∧
    ((get_last_coala_run_time exampleWorld "P").1 =
      some [("a.c", 5), ("b.c", -1)]) ∧
    (alookup (loadCachingData exampleWorld) "Z" = none) ∧
    ((get_last_coala_run_time exampleWorld "Z").1 = none) :=
  ⟨by decide,
   (get_last_run_time_entry_or_none exampleWorld "P").1 _ (by decide),
   by decide,
   (get_last_run_time_entry_or_none exampleWorld "Z").2 (by decide)⟩

/-- C4: registering new files stores, as the project's full run-time entry,
the prior data with each new path mapped to the sentinel -1, replacing
whatever entry the store previously held for the project. -/
theorem add_new_files_sets_sentinel (w : World) (p : String)
    (last_coala_run : Option RunTimeData) (new_files : List String) :
    ∃ e, (get_last_coala_run_time
            (add_new_files_since_last_run w p last_coala_run new_files) p).1
          = some e ∧
      ∀ f, alookup e f =
        if f ∈ new_files then some (-1)
        else alookup (last_coala_run.getD []) f := by
  refine ⟨new_files.foldl (fun m f => ainsert m f (-1))
    (last_coala_run.getD []), ?_, ?_⟩
  · simp only [get_last_coala_run_time, add_new_files_since_last_run,
      pickle_dump, pickle_load]
    exact alookup_ainsert_self _ _ _
  · intro f
    exact alookup_foldl_ainsert _ _ _

/-- C10: registering a path that is already tracked with a non-sentinel
timestamp overwrites its stored timestamp with the sentinel -1, discarding
the previously recorded run time. -/
theorem add_new_files_overwrites_tracked (w : World) (p f : String)
    (prior : RunTimeData) (t : Int) (new_files : List String)
    (hmem : f ∈ new_files) (ht : alookup prior f = some t) (hts : t ≠ -1) :
    getTime (add_new_files_since_last_run w p (some prior) new_files) p f
      = some (-1) := by
  simp only [getTime, loadCachingData, add_new_files_since_last_run,
    pickle_dump, pickle_load, Option.getD]
  rw [alookup_ainsert_self]
  simp [alookup_foldl_ainsert, hmem]

theorem add_new_files_overwrites_tracked_w :
    ("a.c" ∈ ["a.c", "c.c"]) ∧
    (alookup [("a.c", (5 : Int))] "a.c" = some 5) ∧ ((5 : Int) ≠ -1) ∧
    getTime (add_new_files_since_last_run exampleWorld "P"
      (some [("a.c", 5)]) ["a.c", "c.c"]) "P" "a.c" = some (-1) :=
  ⟨by decide, by decide, by decide,
   add_new_files_overwrites_tracked exampleWorld "P" "a.c" [("a.c", 5)] 5
     ["a.c", "c.c"] (by decide) (by decide) (by decide)⟩

/-- C1: for a project with a run-time entry, `update_last_coala_run_time`
sets the timestamp of every tracked file that is not in the project's
changed set (or when the project has no changed set at all) to the current
time, and leaves the timestamp of every file in the changed set unchanged
(sentinel -1 or prior run time survives). -/
theorem update_run_time_per_file (w : World) (p f : String)
    (current_time t : Int) (h : getTime w p f = some t) :
    getTime (update_last_coala_run_time w current_time p) p f =
      some (if changedHas w p f then t else current_time) := by
  simp only [getTime, loadCachingData] at h
  rcases hE : alookup (pickle_load w.caching_db []).1 p with _ | entry
  · simp only [hE] at h
    exact Option.noConfusion h
  · simp only [hE] at h
    simp only [update_last_coala_run_time, hE]
    simp only [getTime, loadCachingData, pickle_dump, pickle_load_val]
    simp only [alookup_ainsert_self]
    rw [alookup_map_snd, h]
    simp only [Option.map_some']
    rw [refreshTime_changedHas]

theorem update_run_time_per_file_w :
    (getTime exampleWorld "P" "a.c" = some 5 ∧
      getTime (update_last_coala_run_time exampleWorld 100 "P") "P" "a.c" =
        some (if changedHas exampleWorld "P" "a.c" then 5 else 100)) ∧
    (getTime exampleWorld "P" "b.c" = some (-1) ∧
      getTime (update_last_coala_run_time exampleWorld 100 "P") "P" "b.c" =
        some (if changedHas exampleWorld "P" "b.c" then -1 else 100)) :=
  ⟨⟨by decide, update_run_time_per_file exampleWorld "P" "a.c" 100 5 (by decide)⟩,
   ⟨by decide, update_run_time_per_file exampleWorld "P" "b.c" 100 (-1) (by decide)⟩⟩

/-- C2: for a project with no run-time entry, `update_last_coala_run_time`
is a no-op: no run-time entry is created for any project, nothing is
written to either store, and in particular the project's changed-files
entry is not reset. -/
theorem update_no_entry_noop (w : World) (p : String) (current_time : Int)
    (h : alookup (loadCachingData w) p = none) :
    (∀ q, alookup (loadCachingData (update_last_coala_run_time w current_time p)) q
        = alookup (loadCachingData w) q) ∧
    (∀ q, alookup (loadChangedData (update_last_coala_run_time w current_time p)) q
        = alookup (loadChangedData w) q) := by
  simp only [loadCachingData] at h
  simp only [update_last_coala_run_time, h, loadCachingData, loadChangedData]
  exact ⟨fun q => by rw [pickle_load_load], fun q => by rw [pickle_load_load]⟩

theorem update_no_entry_noop_w :
    (alookup (loadCachingData exampleWorld) "Z" = none) ∧
    (alookup (loadCachingData (update_last_coala_run_time exampleWorld 100 "Z")) "Z"
        = alookup (loadCachingData exampleWorld) "Z") ∧
    (alookup (loadChangedData (update_last_coala_run_time exampleWorld 100 "Z")) "P"
        = alookup (loadChangedData exampleWorld) "P") :=
  ⟨by decide,
   (update_no_entry_noop exampleWorld "Z" 100 (by decide)).1 "Z",
   (update_no_entry_noop exampleWorld "Z" 100 (by decide)).2 "P"⟩

/-- C3: for a project with a run-time entry, after
`update_last_coala_run_time` the project's stored changed-files entry is
the empty set. -/
theorem update_resets_changed_set (w : World) (p : String)
    (current_time : Int) (entry : RunTimeData)
    (h : alookup (loadCachingData w) p = some entry) :
    alookup (loadChangedData (update_last_coala_run_time w current_time p)) p
      = some [] := by
  simp only [loadCachingData] at h
  simp only [update_last_coala_run_time, h]
  simp only [loadChangedData, pickle_dump, pickle_load_val]
  exact alookup_ainsert_self _ _ _

theorem update_resets_changed_set_w :
    (alookup (loadCachingData exampleWorld) "P" =
      some [("a.c", 5), ("b.c", -1)]) ∧
    alookup (loadChangedData (update_last_coala_run_time exampleWorld 100 "P")) "P"
      = some [] :=
  ⟨by decide,
   update_resets_changed_set exampleWorld "P" 100 [("a.c", 5), ("b.c", -1)]
     (by decide)⟩

/-- C6: every CacheManager operation invoked with project `p` —
`add_to_changed_files`, `add_new_files_since_last_run`,
`update_last_coala_run_time` — leaves the stored state of any other
project `q` unchanged in both stores. -/
theorem multi_project_isolation (w : World) (p q : String) (hpq : q ≠ p)
    (changed_files : List String) (last_coala_run : Option RunTimeData)
    (new_files : List String) (current_time : Int) :
    (alookup (loadChangedData (add_to_changed_files w p changed_files)) q
      = alookup (loadChangedData w) q) ∧
    (alookup (loadCachingData (add_to_changed_files w p changed_files)) q
      = alookup (loadCachingData w) q) ∧
    (alookup (loadCachingData
        (add_new_files_since_last_run w p last_coala_run new_files)) q
      = alookup (loadCachingData w) q) ∧
    (alookup (loadChangedData
        (add_new_files_since_last_run w p last_coala_run new_files)) q
      = alookup (loadChangedData w) q) ∧
    (alookup (loadCachingData (update_last_coala_run_time w current_time p)) q
      = alookup (loadCachingData w) q) ∧
    (alookup (loadChangedData (update_last_coala_run_time w current_time p)) q
      = alookup (loadChangedData w) q) := by
  refine ⟨?_, rfl, ?_, rfl, ?_, ?_⟩
  · rcases hS : alookup (pickle_load w.changed_files_db []).1 p with _ | s
    · simp only [add_to_changed_files, hS, loadChangedData, pickle_dump,
        pickle_load_val]
      exact alookup_ainsert_of_ne _ _ _ _ hpq
    · simp only [add_to_changed_files, hS, loadChangedData, pickle_dump,
        pickle_load_val]
      exact alookup_ainsert_of_ne _ _ _ _ hpq
  · simp only [add_new_files_since_last_run, loadCachingData, pickle_dump,
      pickle_load_val]
    exact alookup_ainsert_of_ne _ _ _ _ hpq
  · rcases hE : alookup (pickle_load w.caching_db []).1 p with _ | entry
    · simp only [update_last_coala_run_time, hE, loadCachingData]
      rw [pickle_load_load]
    · simp only [update_last_coala_run_time, hE, loadCachingData,
        pickle_dump, pickle_load_val]
      exact alookup_ainsert_of_ne _ _ _ _ hpq
  · rcases hE : alookup (pickle_load w.caching_db []).1 p with _ | entry
    · simp only [update_last_coala_run_time, hE, loadChangedData]
      rw [pickle_load_load]
    · simp only [update_last_coala_run_time, hE, loadChangedData,
        pickle_dump, pickle_load_val]
      exact alookup_ainsert_of_ne _ _ _ _ hpq

theorem multi_project_isolation_w :
    ("Q" ≠ "P") ∧
    ((alookup (loadChangedData (add_to_changed_files exampleWorld "P" ["y.c"])) "Q"
      = alookup (loadChangedData exampleWorld) "Q") ∧
    (alookup (loadCachingData (add_to_changed_files exampleWorld "P" ["y.c"])) "Q"
      = alookup (loadCachingData exampleWorld) "Q") ∧
    (alookup (loadCachingData (add_new_files_since_last_run exampleWorld "P"
        (some [("n.c", 3)]) ["n.c"])) "Q"
      = alookup (loadCachingData exampleWorld) "Q") ∧
    (alookup (loadChangedData (add_new_files_since_last_run exampleWorld "P"
        (some [("n.c", 3)]) ["n.c"])) "Q"
      = alookup (loadChangedData exampleWorld) "Q") ∧
    (alookup (loadCachingData (update_last_coala_run_time exampleWorld 100 "P")) "Q"
      = alookup (loadCachingData exampleWorld) "Q") ∧
    (alookup (loadChangedData (update_last_coala_run_time exampleWorld 100 "P")) "Q"
      = alookup (loadChangedData exampleWorld) "Q")) :=
  ⟨by decide,
   multi_project_isolation exampleWorld "P" "Q" (by decide) ["y.c"]
     (some [("n.c", 3)]) ["n.c"] 100⟩

theorem deleteLoop_empty_iff (files : List String) :
    ∀ (disk errs : List String), disk.Nodup → files.Nodup →
      ((deleteLoop disk files errs).1 = [] ↔
        (errs = [] ∧ ∀ f ∈ files, f ∈ disk)) := by
  induction files with
  | nil =>
    intro disk errs _ _
    simp [deleteLoop]
  | cons f t ih =>
    intro disk errs hd hf
    rcases List.nodup_cons.mp hf with ⟨hft, hft'⟩
    by_cases hfd : f ∈ disk
    · simp only [deleteLoop, if_pos hfd]
      rw [ih (disk.erase f) errs (List.Nodup.erase f hd) hft']
      constructor
      · rintro ⟨he, hall⟩
        refine ⟨he, ?_⟩
        intro g hg
        rcases List.mem_cons.mp hg with rfl | hgt
        · exact hfd
        · exact List.mem_of_mem_erase (hall g hgt)
      · rintro ⟨he, hall⟩
        refine ⟨he, ?_⟩
        intro g hg
        exact (List.Nodup.mem_erase_iff hd).mpr
          ⟨fun hgf => hft (hgf ▸ hg), hall g (List.mem_cons_of_mem _ hg)⟩
    · simp only [deleteLoop, if_neg hfd]
      rw [ih disk (errs ++ [f]) hd hft']
      simp [hfd]

/-- C9: `delete_cache_files` returns `true` iff every requested file was
deleted; in particular, on an already-absent file it returns `false`
without raising (the `OSError` of `os.remove` is caught and only
recorded). -/
theorem delete_cache_files_true_iff (disk files : List String)
    (hd : disk.Nodup) (hf : files.Nodup) :
    ((delete_cache_files disk files).1 = true ↔ ∀ f ∈ files, f ∈ disk) := by
  simp only [delete_cache_files]
  rw [List.isEmpty_iff, deleteLoop_empty_iff files disk [] hd hf]
  simp

theorem delete_cache_files_true_iff_w :
    (["caching_db"] : List String).Nodup ∧
    (["changed_files_db"] : List String).Nodup ∧
    ((delete_cache_files ["caching_db"] ["changed_files_db"]).1 = true ↔
      ∀ f ∈ (["changed_files_db"] : List String), f ∈ (["caching_db"] : List String)) :=
  ⟨by decide, by decide,
   delete_cache_files_true_iff ["caching_db"] ["changed_files_db"]
     (by decide) (by decide)⟩

end Caching
